import Mathlib

/-!
Verification of the clazy check-execution and fix-it-synthesis engine against its
natural-language specification.  The checks under scrutiny are the qdatetime-utc check
(src/checks/qdatetimeutc.cpp) and the qt4-qstring-from-array check
(src/checks/qt4-qstring-from-array.cpp), together with the fix-it utilities declared in
src/FixItUtils.h and the check dispatch described by the spec.

The embedding is shallow: clang source locations become an explicit validity-tagged
location type, fix-it hints become a small edit datatype, and each C++ function of the
two checks becomes a Lean function over those types.  Queries into the host compiler
frontend (the clang lexer, location arithmetic) are modelled as an arbitrary oracle,
since the checks only branch on their results.  Utility functions whose implementation
files are not among the sources (FixItUtils.cpp, Utils.cpp, the dispatch loop) are
modelled from the spec; each such definition says so in its doc comment.
-/

namespace Clazy

/-- A clang `SourceLocation`: either the distinguished invalid sentinel or a concrete
position in the translation unit's text. -/
inductive SourceLoc where
  | invalid : SourceLoc
  | loc : Nat → SourceLoc
deriving DecidableEq

/-- `SourceLocation::isValid()`. -/
def SourceLoc.isValid : SourceLoc → Bool
  | .invalid => false
  | .loc _ => true

/-- `SourceLocation::isInvalid()`. -/
def SourceLoc.isInvalid (l : SourceLoc) : Bool := !l.isValid

/-- A clang `SourceRange`: a begin and an end location (`start` models `getBegin()`,
`stop` models `getEnd()`; `end` is a Lean keyword). -/
structure SourceRange where
  start : SourceLoc
  stop : SourceLoc
deriving DecidableEq

/-- `SourceRange::isValid()`: both endpoints valid. -/
def SourceRange.isValid (r : SourceRange) : Bool := r.start.isValid && r.stop.isValid

/-- `SourceRange::isInvalid()`. -/
def SourceRange.isInvalid (r : SourceRange) : Bool := !r.isValid

/-- A clang `FixItHint`: a pure insertion at a location or a replacement of a range
(`FixItHint::CreateInsertion` / `FixItHint::CreateReplacement`). -/
inductive FixItHint where
  | insertion : SourceLoc → String → FixItHint
  | replacement : SourceRange → String → FixItHint
deriving DecidableEq

/-- Whether a hint is a pure insertion (touches no existing text). -/
def FixItHint.isInsertion : FixItHint → Bool
  | .insertion _ _ => true
  | .replacement _ _ => false

/-- One diagnostic as `CheckBase::emitWarning(loc, msg, fixits)` records it. -/
structure Diag where
  loc : SourceLoc
  msg : String
  fixits : List FixItHint
deriving DecidableEq

/-- External collaborator model: the clang lexer and source-location arithmetic
(`Lexer::getLocForEndOfToken` and `SourceLocation::getLocWithOffset`) are read-only
queries into the host compiler frontend (spec section 6).  The checks only branch on
their results, so they are modelled as an arbitrary oracle. -/
structure SourceOracle where
  getLocForEndOfToken : SourceLoc → Int → SourceLoc
  getLocWithOffset : SourceLoc → Int → SourceLoc

/-- Modelled from the spec: `FixItUtils::insertParentMethodCall` (FixItUtils.cpp is not
among the sources).  Its header documents it as transforming `foo` into `method(foo)`
"by inserting \x22method(\x22 at the beginning, and \x27)\x27 at the end"; the spec's
wrap-in-call algorithm (section 4.5) makes these two insertions, one immediately before
the span and one immediately after it. -/
def insertParentMethodCall (method : String) (range : SourceRange)
    (fixits : List FixItHint) : List FixItHint :=
  fixits ++ [FixItHint.insertion range.start (method ++ "("),
             FixItHint.insertion range.stop ")"]

namespace QDateTimeUtc

/-- A resolved callee as `CallExpr::getDirectCallee()` returns it: `isMethod` records
whether `dyn_cast<CXXMethodDecl>` on it succeeds, `qualifiedName` is
`getQualifiedNameAsString()`. -/
structure FunctionDecl where
  isMethod : Bool
  qualifiedName : String
deriving DecidableEq

/-- One call expression as `Utils::callListForChain` exposes it to the qdatetime-utc
check: only `getDirectCallee()` is consulted (qdatetimeutc.cpp line 66). -/
structure CallNode where
  directCallee : Option FunctionDecl
deriving DecidableEq

/-- The receiver expression under a member call: either a non-call expression, or
itself a call (with a resolved callee) on a further receiver. -/
inductive Receiver where
  | nonCall : Receiver
  | call : Option FunctionDecl → Receiver → Receiver
deriving DecidableEq

/-- A `CXXMethodDecl` as the qdatetime-utc check consults it:
`getQualifiedNameAsString()`. -/
structure CXXMethodDecl where
  qualifiedName : String
deriving DecidableEq

/-- A `CXXMemberCallExpr` as the qdatetime-utc check consults it: `getMethodDecl()`
(possibly null), the receiver expression, and the begin/end locations of the whole
member-call expression (`getLocStart()` of a member call is the start of the chain's
source text, `getLocEnd()` its end). -/
structure CXXMemberCallExpr where
  methodDecl : Option CXXMethodDecl
  receiver : Receiver
  locStart : SourceLoc
  locEnd : SourceLoc
deriving DecidableEq

/-- The chain entry for the matched member call itself: its `getDirectCallee()` is its
method declaration. -/
def barNode (bar : CXXMemberCallExpr) : CallNode :=
  ⟨bar.methodDecl.map fun m => ⟨true, m.qualifiedName⟩⟩

/-- The calls found walking a receiver expression inward, in the order the walk visits
them (outer receiver call first, deepest call last). -/
def chainCalls : Receiver → List CallNode
  | .nonCall => []
  | .call f recv => ⟨f⟩ :: chainCalls recv

/-- Modelled from the spec: `Utils::callListForChain` (Utils.cpp is not among the
sources).  The spec describes the chain as "derived on demand by walking the receiver
expression of a call backward": the walk starts at the matched call and descends
through receivers, so it emits the matched (outermost) call first and the deepest call
last.  The caller in qdatetimeutc.cpp line 65 fixes this orientation on the code side:
it reads `chainedCalls[chainedCalls.size() - 1]`, names that element `firstCall`, and
requires it to resolve to `QDateTime::currentDateTime` - the first-executed, innermost
call of a chain such as `currentDateTime().toTime_t()` - which is only possible when
the matched outermost call is first and the innermost call is last. -/
def callListForChain (bar : CXXMemberCallExpr) : List CallNode :=
  barNode bar :: chainCalls bar.receiver

/-- The deepest (first-executed, innermost) call of the chain rooted at the given call:
the last call the backward walk reaches. -/
def chainLastNode (c : CallNode) : Receiver → CallNode
  | .nonCall => c
  | .call f recv => chainLastNode ⟨f⟩ recv

/-- The innermost call of the chain of a matched member call. -/
def innermostNode (bar : CXXMemberCallExpr) : CallNode :=
  chainLastNode (barNode bar) bar.receiver

/-- Modelled from the spec: `FixItUtils::transformTwoCallsIntoOneV2` (FixItUtils.cpp is
not among the sources).  Its header documents it as transforming `foo(...).bar()` into
`baz` by replacing "everything from start to end with baz"; the spec's collapse-chain
variant 2 (section 4.5) "replaces the entire span from the start of the chain's
outermost call through the end of B with C verbatim", and returns failure (leaving the
caller's edit list untouched) when the span cannot be determined, which per section 7
is when a location is invalid. -/
def transformTwoCallsIntoOneV2 (bar : CXXMemberCallExpr) (baz : String)
    (fixits : List FixItHint) : Bool × List FixItHint :=
  if bar.locStart.isValid && bar.locEnd.isValid then
    (true, fixits ++ [FixItHint.replacement ⟨bar.locStart, bar.locEnd⟩ baz])
  else
    (false, fixits)

/-- The two collapse-chain entry points declared in FixItUtils.h:
`transformTwoCallsIntoOne` (variant 1) and `transformTwoCallsIntoOneV2` (variant 2). -/
inductive TransformVariant where
  | v1 : TransformVariant
  | v2 : TransformVariant
deriving DecidableEq

/-- A statement as `QDateTimeUtc::VisitStmt` sees it: either a `CXXMemberCallExpr`
(`dyn_cast` succeeds) or any other statement. -/
inductive Stmt where
  | memberCall : CXXMemberCallExpr → Stmt
  | other : SourceLoc → Stmt
deriving DecidableEq

/-- The observable effects of one `VisitStmt` invocation: the diagnostics emitted via
`emitWarning`, the location passed to `queueManualFixitWarning` when it was called
(`none` when it was not), and which fix-it synthesizer entry point was invoked with
which replacement argument (recorded so that the synthesis route is part of the
observable behaviour). -/
structure Outcome where
  diags : List Diag
  manualFixitQueued : Option SourceLoc
  synthCall : Option (TransformVariant × String)
deriving DecidableEq

/-- The outcome of a visit that returns early: nothing emitted, nothing queued. -/
def emptyOutcome : Outcome := ⟨[], none, none⟩

/-- `QDateTimeUtc::VisitStmt` (qdatetimeutc.cpp lines 50-88).  `fixitAllEnabled` models
`isFixitEnabled(FixitAll)`.  `chainedCalls[chainedCalls.size() - 1]` is embedded as
`getLastD` with an arbitrary default; the list returned by `callListForChain` is a cons
cell so the default is never consulted. -/
def VisitStmt (fixitAllEnabled : Bool) (stmt : Stmt) : Outcome :=
  match stmt with
  | .other _ => emptyOutcome
  | .memberCall secondCall =>
    match secondCall.methodDecl with
    | none => emptyOutcome
    | some secondMethod =>
      let secondMethodName := secondMethod.qualifiedName
      let isTimeT := secondMethodName == "QDateTime::toTime_t"
      if !isTimeT && secondMethodName != "QDateTime::toUTC" then emptyOutcome
      else
        let chainedCalls := callListForChain secondCall
        if chainedCalls.length < 2 then emptyOutcome
        else
          let firstCall := chainedCalls.getLastD ⟨none⟩
          match firstCall.directCallee with
          | none => emptyOutcome
          | some firstFunc =>
            if !firstFunc.isMethod then emptyOutcome
            else if firstFunc.qualifiedName != "QDateTime::currentDateTime" then
              emptyOutcome
            else
              let replacement :=
                if isTimeT then "::currentDateTimeUtc()" ++ ".toTime_t()"
                else "::currentDateTimeUtc()"
              if fixitAllEnabled then
                let r := transformTwoCallsIntoOneV2 secondCall replacement []
                { diags := [⟨secondCall.locStart,
                             "Use QDateTime" ++ replacement ++ " instead", r.2⟩],
                  manualFixitQueued := if r.1 then none else some secondCall.locStart,
                  synthCall := some (TransformVariant.v2, replacement) }
              else
                { diags := [⟨secondCall.locStart,
                             "Use QDateTime" ++ replacement ++ " instead", []⟩],
                  manualFixitQueued := none,
                  synthCall := none }

end QDateTimeUtc

namespace Qt4_QStringFromArray

/-- A `ParmVarDecl` as the check consults it: `getType().getAsString()`. -/
structure ParmVarDecl where
  typeStr : String
deriving DecidableEq

/-- The result of the interest classifiers: the C++ functions return a `bool` and set
the by-reference flags `is_char_array` / `is_byte_array`. -/
structure ParamClass where
  interesting : Bool
  is_char_array : Bool
  is_byte_array : Bool
deriving DecidableEq

/-- `isInterestingParam` (qt4-qstring-from-array.cpp lines 48-60): both flags start
false; a first-parameter type printing exactly as `const class QByteArray &` sets
`is_byte_array`, exactly `const char *` sets `is_char_array`; the return value is the
disjunction of the flags. -/
def isInterestingParam (param : ParmVarDecl) : ParamClass :=
  let typeStr := param.typeStr
  if typeStr == "const class QByteArray &" then ⟨true, false, true⟩
  else if typeStr == "const char *" then ⟨true, true, false⟩
  else ⟨false, false, false⟩

/-- A `CXXConstructorDecl` as the check consults it: the name of the class it belongs
to and its parameter list. -/
structure CXXConstructorDecl where
  className : String
  params : List ParmVarDecl
deriving DecidableEq

/-- `isOfClass(ctor, name)` (declared in Utils.h; its body is not among the sources):
a name-resolution query into the frontend (spec section 6), answering whether the
constructor's class has the given name. -/
def isOfClass (ctor : CXXConstructorDecl) (className : String) : Bool :=
  ctor.className == className

/-- `isInterestingCtorCall` (qt4-qstring-from-array.cpp lines 62-77).  The C++ loop
over `ctor->param_begin()..param_end()` only ever examines the first parameter: on the
first iteration it either breaks (first parameter interesting) or returns false; with
no parameters it falls through with both flags still false.  The embedding therefore
matches on the head of the parameter list. -/
def isInterestingCtorCall (ctor : Option CXXConstructorDecl) : ParamClass :=
  match ctor with
  | none => ⟨false, false, false⟩
  | some c =>
    if !(isOfClass c "QString") then ⟨false, false, false⟩
    else
      match c.params with
      | [] => ⟨false, false, false⟩
      | p :: _ =>
        let r := isInterestingParam p
        if r.interesting then
          ⟨r.is_char_array || r.is_byte_array, r.is_char_array, r.is_byte_array⟩
        else ⟨false, false, false⟩

/-- `isInterestingMethod` (qt4-qstring-from-array.cpp lines 79-83): membership in the
fixed method-name table. -/
def isInterestingMethod (methodName : String) : Bool :=
  let methods := ["append", "prepend", "operator=", "operator==", "operator!=",
                  "operator<", "operator<=", "operator>", "operator>=", "operator+="]
  methods.contains methodName

/-- A `CXXMethodDecl` as the check consults it: `getParent()->getNameAsString()`,
`getNameAsString()`, and the parameter list (`getNumParams`, `getParamDecl`). -/
structure CXXMethodDecl where
  parentName : String
  name : String
  params : List ParmVarDecl
deriving DecidableEq

/-- The result of `isInterestingMethodCall`: the return value, the by-reference
`methodName`, and the two by-reference flags. -/
structure MethodClass where
  interesting : Bool
  methodName : String
  is_char_array : Bool
  is_byte_array : Bool
deriving DecidableEq

/-- `isInterestingMethodCall` (qt4-qstring-from-array.cpp lines 85-103).
`getParamDecl(0)` is embedded as `headD`; the guard `getNumParams() == 1` makes the
default unreachable. -/
def isInterestingMethodCall (method : Option CXXMethodDecl) : MethodClass :=
  match method with
  | none => ⟨false, "", false, false⟩
  | some m =>
    if m.parentName != "QString" || m.params.length != 1 then ⟨false, "", false, false⟩
    else
      let methodName := m.name
      if !(isInterestingMethod methodName) then ⟨false, methodName, false, false⟩
      else
        let r := isInterestingParam (m.params.headD ⟨""⟩)
        if !r.interesting then ⟨false, methodName, false, false⟩
        else ⟨true, methodName, r.is_char_array, r.is_byte_array⟩

/-- A `FunctionDecl` as returned by `getDirectCallee()`: `asMethod` is the result of
`dyn_cast<CXXMethodDecl>` on it (`none` for a non-member function). -/
structure FunctionDecl where
  asMethod : Option CXXMethodDecl
deriving DecidableEq

/-- An argument expression as the fix helpers consult it: `getLocStart()` and the
result of `FixItUtils::biggestSourceLocationInStmt` on it (`deepestLoc`; the utility's
body is not among the sources - spec section 4.1 specifies `deepestSourceLocation` as
the rightmost location among the node's descendants, so the embedding carries that
location as a field of the node). -/
structure Expr where
  locStart : SourceLoc
  deepestLoc : SourceLoc
deriving DecidableEq

/-- A `CXXOperatorCallExpr` as the check consults it: `getDirectCallee()`, the argument
list (`getNumArgs`, `getArg`), and `getLocStart()`. -/
structure CXXOperatorCallExpr where
  directCallee : Option FunctionDecl
  args : List Expr
  locStart : SourceLoc
deriving DecidableEq

/-- A `CXXMemberCallExpr` as this check consults it: `getMethodDecl()` (possibly
null), the argument list, and `getLocStart()`. -/
structure CXXMemberCallExpr where
  methodDecl : Option CXXMethodDecl
  args : List Expr
  locStart : SourceLoc
deriving DecidableEq

/-- A `CXXConstructExpr` as the check consults it: `getConstructor()` (possibly null),
the first argument `*(ctorExpr->arg_begin())` (the interesting constructors all take a
first argument), `getLocStart()`, and the result of
`FixItUtils::biggestSourceLocationInStmt` on the whole construct expression. -/
structure CXXConstructExpr where
  constructor : Option CXXConstructorDecl
  firstArg : Expr
  locStart : SourceLoc
  deepestLoc : SourceLoc
deriving DecidableEq

/-- `isInterestingOperatorCall` (qt4-qstring-from-array.cpp lines 105-114): a null
direct callee is rejected; otherwise the `dyn_cast<CXXMethodDecl>` result is handed to
`isInterestingMethodCall`. -/
def isInterestingOperatorCall (op : CXXOperatorCallExpr) : MethodClass :=
  match op.directCallee with
  | none => ⟨false, "", false, false⟩
  | some func => isInterestingMethodCall func.asMethod

/-- The observable result of one fix helper: the returned fixit vector, the
`emitWarning` calls it made itself, and the location passed to
`queueManualFixitWarning` when it called it (`none` when it did not). -/
structure FixResult where
  fixits : List FixItHint
  warnings : List Diag
  manualFixitQueued : Option SourceLoc
deriving DecidableEq

/-- `Qt4_QStringFromArray::fixOperatorCall` (qt4-qstring-from-array.cpp lines
179-201).  With exactly two arguments the edit range runs from `getArg(1)`'s start to
`Lexer::getLocForEndOfToken(biggestSourceLocationInStmt(sm, e), 0, ...)`; an invalid
range or a wrong argument count yields an "internal error" warning and no edits. -/
def fixOperatorCall (o : SourceOracle) (op : CXXOperatorCallExpr) : FixResult :=
  match op.args with
  | [_, e] =>
    let start := e.locStart
    let stop := o.getLocForEndOfToken e.deepestLoc 0
    let range : SourceRange := ⟨start, stop⟩
    if range.isInvalid then ⟨[], [⟨op.locStart, "internal error", []⟩], none⟩
    else ⟨insertParentMethodCall "QString::fromLatin1" range [], [], none⟩
  | _ => ⟨[], [⟨op.locStart, "internal error", []⟩], none⟩

/-- `Qt4_QStringFromArray::fixMethodCallCall` (qt4-qstring-from-array.cpp lines
203-225): the one-argument analogue of `fixOperatorCall`, reading
`*(memberExpr->arg_begin())`. -/
def fixMethodCallCall (o : SourceOracle) (memberExpr : CXXMemberCallExpr) : FixResult :=
  match memberExpr.args with
  | [e] =>
    let start := e.locStart
    let stop := o.getLocForEndOfToken e.deepestLoc 0
    let range : SourceRange := ⟨start, stop⟩
    if range.isInvalid then ⟨[], [⟨memberExpr.locStart, "internal error", []⟩], none⟩
    else ⟨insertParentMethodCall "QString::fromLatin1" range [], [], none⟩
  | _ => ⟨[], [⟨memberExpr.locStart, "internal error", []⟩], none⟩

/-- `Qt4_QStringFromArray::fixitReplaceWithFromLatin1` (qt4-qstring-from-array.cpp
lines 227-251).  Stage one: `Lexer::getLocForEndOfToken(rangeStart, -1, ...)`.  Stage
two, on an invalid result: `rangeStart.getLocWithOffset(replacee.size() - 2)` with
`replacee = "QString"`.  Stage three, when that is also invalid: debug printing via
`StringUtils::printLocation` (no observable edit effect), a call to
`queueManualFixitWarning(ctorExpr->getLocStart(), FixItToFromLatin1)`, and an empty
edit list. -/
def fixitReplaceWithFromLatin1 (o : SourceOracle) (ctorExpr : CXXConstructExpr) :
    FixResult :=
  let replacement := "QString::fromLatin1"
  let replacee := "QString"
  let rangeStart := ctorExpr.locStart
  let rangeEnd := o.getLocForEndOfToken rangeStart (-1)
  if rangeEnd.isInvalid then
    let rangeEnd2 := o.getLocWithOffset rangeStart ((replacee.length : Int) - 2)
    if rangeEnd2.isInvalid then ⟨[], [], some ctorExpr.locStart⟩
    else ⟨[FixItHint.replacement ⟨rangeStart, rangeEnd2⟩ replacement], [], none⟩
  else ⟨[FixItHint.replacement ⟨rangeStart, rangeEnd⟩ replacement], [], none⟩

/-- `Qt4_QStringFromArray::fixitInsertFromLatin1` (qt4-qstring-from-array.cpp lines
253-269): the range runs from the first constructor argument's start to
`Lexer::getLocForEndOfToken(biggestSourceLocationInStmt(sm, ctorExpr), 0, ...)`; an
invalid range yields an "Internal error" warning and no edits, otherwise the wrapping
call is inserted around the range. -/
def fixitInsertFromLatin1 (o : SourceOracle) (ctorExpr : CXXConstructExpr) : FixResult :=
  let arg := ctorExpr.firstArg
  let range : SourceRange := ⟨arg.locStart, o.getLocForEndOfToken ctorExpr.deepestLoc 0⟩
  if range.isInvalid then ⟨[], [⟨ctorExpr.locStart, "Internal error", []⟩], none⟩
  else ⟨insertParentMethodCall "QString::fromLatin1" range [], [], none⟩

/-- The node kinds `fixCtorCall` distinguishes via `isa<>` on the parent nodes. -/
inductive StmtKind where
  | cxxBindTemporaryExpr : StmtKind
  | cxxFunctionalCastExpr : StmtKind
  | otherStmt : StmtKind
deriving DecidableEq

/-- The two `HierarchyUtils::parent` lookups `fixCtorCall` performs on `m_parentMap`
(the parent-map implementation is not among the sources; spec section 4.2 specifies
`parentOf` as the immediate parent or none).  Only the parents' node kinds are
consulted, via `isa<CXXBindTemporaryExpr>` and `isa<CXXFunctionalCastExpr>`. -/
structure ParentLookups where
  parent : Option StmtKind
  grandParent : Option StmtKind
deriving DecidableEq

/-- `Qt4_QStringFromArray::fixCtorCall` (qt4-qstring-from-array.cpp lines 167-177):
when the parent is a `CXXBindTemporaryExpr` and the grandparent a
`CXXFunctionalCastExpr`, replace the constructor name; in every other context insert
the wrapping call. -/
def fixCtorCall (o : SourceOracle) (pl : ParentLookups) (ctorExpr : CXXConstructExpr) :
    FixResult :=
  match pl.parent, pl.grandParent with
  | some p, some gp =>
    if p == StmtKind.cxxBindTemporaryExpr && gp == StmtKind.cxxFunctionalCastExpr then
      fixitReplaceWithFromLatin1 o ctorExpr
    else fixitInsertFromLatin1 o ctorExpr
  | _, _ => fixitInsertFromLatin1 o ctorExpr

/-- A statement as `Qt4_QStringFromArray::VisitStmt` sees it: the three `dyn_cast`
targets are pairwise disjoint clang classes, so a statement is at most one of them. -/
inductive Stmt where
  | ctorStmt : CXXConstructExpr → Stmt
  | opStmt : CXXOperatorCallExpr → Stmt
  | mcStmt : CXXMemberCallExpr → Stmt
  | other : SourceLoc → Stmt
deriving DecidableEq

/-- The observable effects of one `Qt4_QStringFromArray::VisitStmt` invocation: the
diagnostics emitted and the location passed to `queueManualFixitWarning` when a fix
helper called it (`none` when none did). -/
structure Outcome where
  diags : List Diag
  manualFixitQueued : Option SourceLoc
deriving DecidableEq

/-- The outcome of a visit that returns early. -/
def emptyOutcome : Outcome := ⟨[], none⟩

/-- `Qt4_QStringFromArray::VisitStmt` (qt4-qstring-from-array.cpp lines 116-165).  The
warnings a fix helper emitted itself precede the final `emitWarning` of the matched
statement; the message is chosen by the branch and the `is_char_array` flag. -/
def VisitStmt (o : SourceOracle) (pl : ParentLookups) (stm : Stmt) : Outcome :=
  match stm with
  | .other _ => emptyOutcome
  | .ctorStmt ctorExpr =>
    let r := isInterestingCtorCall ctorExpr.constructor
    if !r.interesting then emptyOutcome
    else
      let fr := fixCtorCall o pl ctorExpr
      let message :=
        if r.is_char_array then "QString(const char *) ctor being called"
        else "QString(QByteArray) ctor being called"
      ⟨fr.warnings ++ [⟨ctorExpr.locStart, message, fr.fixits⟩], fr.manualFixitQueued⟩
  | .opStmt operatorCall =>
    let r := isInterestingOperatorCall operatorCall
    if !r.interesting then emptyOutcome
    else
      let fr := fixOperatorCall o operatorCall
      let message :=
        if r.is_char_array then "QString::" ++ r.methodName ++ "(const char *) being called"
        else "QString::" ++ r.methodName ++ "(QByteArray) being called"
      ⟨fr.warnings ++ [⟨operatorCall.locStart, message, fr.fixits⟩], fr.manualFixitQueued⟩
  | .mcStmt memberCall =>
    let r := isInterestingMethodCall memberCall.methodDecl
    if !r.interesting then emptyOutcome
    else
      let fr := fixMethodCallCall o memberCall
      let message :=
        if r.is_char_array then "QString::" ++ r.methodName ++ "(const char *) being called"
        else "QString::" ++ r.methodName ++ "(QByteArray) being called"
      ⟨fr.warnings ++ [⟨memberCall.locStart, message, fr.fixits⟩], fr.manualFixitQueued⟩

end Qt4_QStringFromArray

namespace CheckDispatch

/-- The two node kinds the dispatch loop distinguishes (spec section 4.4): declaration
nodes and statement nodes. -/
inductive NodeKind where
  | decl : NodeKind
  | stmt : NodeKind
deriving DecidableEq

/-- A registered check's declared interest: which visit callbacks it overrides
(declaration-visitor, statement-visitor). -/
structure Check where
  name : String
  visitsDecls : Bool
  visitsStmts : Bool
deriving DecidableEq

/-- Whether a check registered interest in nodes of the given kind. -/
def interestedIn (c : Check) : NodeKind → Bool
  | .decl => c.visitsDecls
  | .stmt => c.visitsStmts

/-- From src/checks/qset-intersects.h lines 40-45: `QSetIntersects` overrides only
`VisitStmt`. -/
def qSetIntersects : Check := ⟨"qset-intersects", false, true⟩

/-- From src/src/checks/level2/ctor-missing-parent-argument.h lines 38-44:
`CtorMissingParentArgument` overrides only `VisitDecl`. -/
def ctorMissingParentArgument : Check := ⟨"ctor-missing-parent-argument", true, false⟩

/-- A translation unit's tree of declaration and statement nodes. -/
inductive AstTree where
  | node : NodeKind → List AstTree → AstTree

mutual

/-- The node kinds of a tree in the walk's natural outer-to-inner, left-to-right
order. -/
def preorderKinds : AstTree → List NodeKind
  | .node k cs => k :: forestKinds cs

/-- The node kinds of a forest of subtrees, left to right. -/
def forestKinds : List AstTree → List NodeKind
  | [] => []
  | t :: ts => preorderKinds t ++ forestKinds ts

end

/-- Modelled from the spec: the Check Dispatch Loop (section 4.4; its implementation
is not among the sources) - the walk enumerates every node once in the tree's natural
order and "for each node invokes every enabled check whose declared interest matches
the node's kind (declaration-visitor vs statement-visitor)".  The log records one
entry (check name, node kind) per invocation. -/
def dispatchWalk (checks : List Check) (tu : AstTree) : List (String × NodeKind) :=
  (preorderKinds tu).flatMap fun k =>
    (checks.filter fun c => interestedIn c k).map fun c => (c.name, k)

end CheckDispatch

/-!
Concrete sample inputs used by witnesses and counterexamples.
-/

/-- An oracle whose location queries always succeed, answering with a fixed
position. -/
def okOracle : SourceOracle := ⟨fun _ _ => SourceLoc.loc 7, fun _ _ => SourceLoc.loc 5⟩

/-- An oracle whose location queries always fail. -/
def failOracle : SourceOracle := ⟨fun _ _ => SourceLoc.invalid, fun _ _ => SourceLoc.invalid⟩

/-- An oracle whose end-of-token query fails but whose offset arithmetic succeeds. -/
def fallbackOracle : SourceOracle :=
  ⟨fun _ _ => SourceLoc.invalid, fun _ _ => SourceLoc.loc 5⟩

/-- A sample argument expression with valid locations. -/
def sampleArg : Qt4_QStringFromArray.Expr := ⟨SourceLoc.loc 1, SourceLoc.loc 4⟩

/-- A sample argument expression whose start location is invalid. -/
def badArg : Qt4_QStringFromArray.Expr := ⟨SourceLoc.invalid, SourceLoc.loc 4⟩

/-- A sample `QString(const char *)` constructor call. -/
def sampleCtorExpr : Qt4_QStringFromArray.CXXConstructExpr :=
  ⟨some ⟨"QString", [⟨"const char *"⟩]⟩, sampleArg, SourceLoc.loc 0, SourceLoc.loc 4⟩

/-- A sample operator call `s == "foo"` on `QString::operator==(const char *)`. -/
def sampleOpCall : Qt4_QStringFromArray.CXXOperatorCallExpr :=
  ⟨some ⟨some ⟨"QString", "operator==", [⟨"const char *"⟩]⟩⟩,
   [⟨SourceLoc.loc 0, SourceLoc.loc 0⟩, badArg], SourceLoc.loc 0⟩

/-- A sample member call `s.append("foo")` on `QString::append(const char *)`. -/
def sampleMemberCall : Qt4_QStringFromArray.CXXMemberCallExpr :=
  ⟨some ⟨"QString", "append", [⟨"const char *"⟩]⟩, [badArg], SourceLoc.loc 0⟩

/-- The member call matching the literal chain `QDateTime::currentDateTime().toTime_t()`:
the matched call resolves to `QDateTime::toTime_t` and its receiver is the call
resolving to `QDateTime::currentDateTime`. -/
def sampleTimeTCall : QDateTimeUtc.CXXMemberCallExpr :=
  ⟨some ⟨"QDateTime::toTime_t"⟩,
   QDateTimeUtc.Receiver.call (some ⟨true, "QDateTime::currentDateTime"⟩)
     QDateTimeUtc.Receiver.nonCall,
   SourceLoc.loc 0, SourceLoc.loc 36⟩

/-- The member call matching the literal chain `QDateTime::currentDateTime().toUTC()`. -/
def sampleToUTCCall : QDateTimeUtc.CXXMemberCallExpr :=
  ⟨some ⟨"QDateTime::toUTC"⟩,
   QDateTimeUtc.Receiver.call (some ⟨true, "QDateTime::currentDateTime"⟩)
     QDateTimeUtc.Receiver.nonCall,
   SourceLoc.loc 0, SourceLoc.loc 33⟩

/-- The `toTime_t` chain whose end location is invalid (the macro-expansion edge case
in which the collapse-chain synthesizer fails) while the matched location is valid. -/
def sampleBadLocCall : QDateTimeUtc.CXXMemberCallExpr :=
  ⟨some ⟨"QDateTime::toTime_t"⟩,
   QDateTimeUtc.Receiver.call (some ⟨true, "QDateTime::currentDateTime"⟩)
     QDateTimeUtc.Receiver.nonCall,
   SourceLoc.loc 0, SourceLoc.invalid⟩

/-- The warning condition of claim C8, written from the claim's words as a refinement
condition to compare against `QDateTimeUtc.VisitStmt`: the node is a member call whose
resolved method is `QDateTime::toTime_t` or `QDateTime::toUTC`, the call chain derived
from that call has at least two elements, and the chain's last element resolves to a
method named `QDateTime::currentDateTime`. -/
def qdatetimeutcWarnCondition : QDateTimeUtc.Stmt → Bool
  | .other _ => false
  | .memberCall mc =>
    match mc.methodDecl with
    | none => false
    | some m =>
      (m.qualifiedName == "QDateTime::toTime_t" ||
       m.qualifiedName == "QDateTime::toUTC") &&
      decide (2 ≤ (QDateTimeUtc.callListForChain mc).length) &&
      (match ((QDateTimeUtc.callListForChain mc).getLastD ⟨none⟩).directCallee with
       | none => false
       | some f => f.isMethod && f.qualifiedName == "QDateTime::currentDateTime")

/-- Claim C1: whenever a fix-it synthesis routine of the qt4-qstring-from-array check
computes an invalid edit range, it returns an empty edit list rather than an edit built
from the invalid range: this holds for `fixOperatorCall` (range from the second
argument's start to the end-of-token past its deepest location), `fixMethodCallCall`
(same range for the single argument) and `fixitInsertFromLatin1` (range from the first
constructor argument's start to the end-of-token past the construct expression's
deepest location). -/
theorem c1_invalid_range_yields_no_edits :
    (∀ (o : SourceOracle) (op : Qt4_QStringFromArray.CXXOperatorCallExpr)
       (a e : Qt4_QStringFromArray.Expr), op.args = [a, e] →
       (SourceRange.mk e.locStart (o.getLocForEndOfToken e.deepestLoc 0)).isInvalid = true →
       (Qt4_QStringFromArray.fixOperatorCall o op).fixits = []) ∧
    (∀ (o : SourceOracle) (mc : Qt4_QStringFromArray.CXXMemberCallExpr)
       (e : Qt4_QStringFromArray.Expr), mc.args = [e] →
       (SourceRange.mk e.locStart (o.getLocForEndOfToken e.deepestLoc 0)).isInvalid = true →
       (Qt4_QStringFromArray.fixMethodCallCall o mc).fixits = []) ∧
    (∀ (o : SourceOracle) (ce : Qt4_QStringFromArray.CXXConstructExpr),
       (SourceRange.mk ce.firstArg.locStart
         (o.getLocForEndOfToken ce.deepestLoc 0)).isInvalid = true →
       (Qt4_QStringFromArray.fixitInsertFromLatin1 o ce).fixits = []) := by
  refine ⟨?_, ?_, ?_⟩
  · intro o op a e hargs hinv
    simp [Qt4_QStringFromArray.fixOperatorCall, hargs, hinv]
  · intro o mc e hargs hinv
    simp [Qt4_QStringFromArray.fixMethodCallCall, hargs, hinv]
  · intro o ce hinv
    simp [Qt4_QStringFromArray.fixitInsertFromLatin1, hinv]

/-- Witness for C1: each of the three routines, fed a concrete input whose computed
range is invalid (the argument's start location is the invalid sentinel), returns no
edits. -/
theorem c1_invalid_range_yields_no_edits_witness :
    (Qt4_QStringFromArray.fixOperatorCall okOracle sampleOpCall).fixits = [] ∧
    (Qt4_QStringFromArray.fixMethodCallCall okOracle sampleMemberCall).fixits = [] ∧
    (Qt4_QStringFromArray.fixitInsertFromLatin1 failOracle sampleCtorExpr).fixits = [] :=
  ⟨c1_invalid_range_yields_no_edits.1 okOracle sampleOpCall _ badArg rfl (by decide),
   c1_invalid_range_yields_no_edits.2.1 okOracle sampleMemberCall badArg rfl (by decide),
   c1_invalid_range_yields_no_edits.2.2 failOracle sampleCtorExpr (by decide)⟩

/-- Claim C10: `fixOperatorCall` returns an empty fixit list and emits an
"internal error" warning whenever the operator call does not have exactly two
arguments, and `fixMethodCallCall` does the same whenever the member call does not
have exactly one argument; no partial edit is returned in either case. -/
theorem c10_wrong_arity_internal_error :
    (∀ (o : SourceOracle) (op : Qt4_QStringFromArray.CXXOperatorCallExpr),
       op.args.length ≠ 2 →
       Qt4_QStringFromArray.fixOperatorCall o op =
         ⟨[], [⟨op.locStart, "internal error", []⟩], none⟩) ∧
    (∀ (o : SourceOracle) (mc : Qt4_QStringFromArray.CXXMemberCallExpr),
       mc.args.length ≠ 1 →
       Qt4_QStringFromArray.fixMethodCallCall o mc =
         ⟨[], [⟨mc.locStart, "internal error", []⟩], none⟩) := by
  constructor
  · intro o op hlen
    match hargs : op.args with
    | [] => simp [Qt4_QStringFromArray.fixOperatorCall, hargs]
    | [a] => simp [Qt4_QStringFromArray.fixOperatorCall, hargs]
    | [a, e] => exact absurd (by rw [hargs]; rfl) hlen
    | a :: b :: c :: t => simp [Qt4_QStringFromArray.fixOperatorCall, hargs]
  · intro o mc hlen
    match hargs : mc.args with
    | [] => simp [Qt4_QStringFromArray.fixMethodCallCall, hargs]
    | [e] => exact absurd (by rw [hargs]; rfl) hlen
    | a :: b :: t => simp [Qt4_QStringFromArray.fixMethodCallCall, hargs]

/-- Witness for C10: an operator call with no arguments and a member call with two
arguments each produce the internal-error warning and no edits. -/
theorem c10_wrong_arity_internal_error_witness :
    Qt4_QStringFromArray.fixOperatorCall okOracle ⟨none, [], SourceLoc.loc 0⟩ =
      ⟨[], [⟨SourceLoc.loc 0, "internal error", []⟩], none⟩ ∧
    Qt4_QStringFromArray.fixMethodCallCall okOracle ⟨none, [sampleArg, sampleArg], SourceLoc.loc 0⟩ =
      ⟨[], [⟨SourceLoc.loc 0, "internal error", []⟩], none⟩ :=
  ⟨c10_wrong_arity_internal_error.1 okOracle ⟨none, [], SourceLoc.loc 0⟩ (by decide),
   c10_wrong_arity_internal_error.2 okOracle ⟨none, [sampleArg, sampleArg], SourceLoc.loc 0⟩
     (by decide)⟩

/-- Claim C3: the fix strategy for a QString-from-array constructor call is selected by
the syntactic context: with a bind-temporary parent and a functional-cast grandparent
the replace-constructor-name strategy (`fixitReplaceWithFromLatin1`) is chosen; in
every other context the insert-wrapping-call strategy (`fixitInsertFromLatin1`) is
chosen, and that strategy only ever produces pure insertions, so the original
constructor name is never deleted. -/
theorem c3_fix_strategy_selected_by_context :
    (∀ (o : SourceOracle) (pl : Qt4_QStringFromArray.ParentLookups)
       (ce : Qt4_QStringFromArray.CXXConstructExpr),
       pl.parent = some Qt4_QStringFromArray.StmtKind.cxxBindTemporaryExpr →
       pl.grandParent = some Qt4_QStringFromArray.StmtKind.cxxFunctionalCastExpr →
       Qt4_QStringFromArray.fixCtorCall o pl ce =
         Qt4_QStringFromArray.fixitReplaceWithFromLatin1 o ce) ∧
    (∀ (o : SourceOracle) (pl : Qt4_QStringFromArray.ParentLookups)
       (ce : Qt4_QStringFromArray.CXXConstructExpr),
       ¬(pl.parent = some Qt4_QStringFromArray.StmtKind.cxxBindTemporaryExpr ∧
         pl.grandParent = some Qt4_QStringFromArray.StmtKind.cxxFunctionalCastExpr) →
       Qt4_QStringFromArray.fixCtorCall o pl ce =
         Qt4_QStringFromArray.fixitInsertFromLatin1 o ce) ∧
    (∀ (o : SourceOracle) (ce : Qt4_QStringFromArray.CXXConstructExpr),
       ∀ h ∈ (Qt4_QStringFromArray.fixitInsertFromLatin1 o ce).fixits,
         h.isInsertion = true) := by
  refine ⟨?_, ?_, ?_⟩
  · intro o pl ce hp hgp
    simp [Qt4_QStringFromArray.fixCtorCall, hp, hgp]
  · intro o pl ce hnot
    obtain ⟨pp, pgp⟩ := pl
    match pp, pgp with
    | none, _ => simp [Qt4_QStringFromArray.fixCtorCall]
    | some p, none => simp [Qt4_QStringFromArray.fixCtorCall]
    | some p, some gp =>
      simp only [Qt4_QStringFromArray.fixCtorCall]
      have : ¬(p = Qt4_QStringFromArray.StmtKind.cxxBindTemporaryExpr ∧
               gp = Qt4_QStringFromArray.StmtKind.cxxFunctionalCastExpr) := by
        intro ⟨h1, h2⟩; exact hnot ⟨by rw [h1], by rw [h2]⟩
      rcases Decidable.not_and_iff_or_not.mp this with h | h <;>
        simp [h]
  · intro o ce h hmem
    unfold Qt4_QStringFromArray.fixitInsertFromLatin1 at hmem
    by_cases hr : (SourceRange.mk ce.firstArg.locStart
        (o.getLocForEndOfToken ce.deepestLoc 0)).isInvalid = true
    · simp [hr] at hmem
    · simp [hr, insertParentMethodCall] at hmem
      rcases hmem with h1 | h1 <;> simp [h1, FixItHint.isInsertion]

/-- Witness for C3: with a bind-temporary parent and functional-cast grandparent the
replace strategy is chosen; with no recorded parent the insert strategy is chosen, and
its edits on a concrete valid input are all insertions. -/
theorem c3_fix_strategy_selected_by_context_witness :
    Qt4_QStringFromArray.fixCtorCall okOracle
        ⟨some Qt4_QStringFromArray.StmtKind.cxxBindTemporaryExpr,
         some Qt4_QStringFromArray.StmtKind.cxxFunctionalCastExpr⟩ sampleCtorExpr =
      Qt4_QStringFromArray.fixitReplaceWithFromLatin1 okOracle sampleCtorExpr ∧
    Qt4_QStringFromArray.fixCtorCall okOracle ⟨none, none⟩ sampleCtorExpr =
      Qt4_QStringFromArray.fixitInsertFromLatin1 okOracle sampleCtorExpr ∧
    ∀ h ∈ (Qt4_QStringFromArray.fixitInsertFromLatin1 okOracle sampleCtorExpr).fixits,
      h.isInsertion = true :=
  ⟨c3_fix_strategy_selected_by_context.1 okOracle _ sampleCtorExpr rfl rfl,
   c3_fix_strategy_selected_by_context.2.1 okOracle ⟨none, none⟩ sampleCtorExpr
     (by intro ⟨h1, _⟩; exact Option.noConfusion h1),
   c3_fix_strategy_selected_by_context.2.2 okOracle sampleCtorExpr⟩

/-- Claim C4: `fixitReplaceWithFromLatin1` proceeds in three stages: first the
end-of-token computation with offset -1; if invalid, the fallback location obtained by
shifting the start by `"QString".size() - 2`; and if that is also invalid, no edit at
all and a manual-fixit warning queued at the constructor call's start location. -/
theorem c4_replace_ctor_three_stage_fallback :
    (∀ (o : SourceOracle) (ce : Qt4_QStringFromArray.CXXConstructExpr),
       (o.getLocForEndOfToken ce.locStart (-1)).isValid = true →
       Qt4_QStringFromArray.fixitReplaceWithFromLatin1 o ce =
         ⟨[FixItHint.replacement ⟨ce.locStart, o.getLocForEndOfToken ce.locStart (-1)⟩
             "QString::fromLatin1"], [], none⟩) ∧
    (∀ (o : SourceOracle) (ce : Qt4_QStringFromArray.CXXConstructExpr),
       (o.getLocForEndOfToken ce.locStart (-1)).isValid = false →
       (o.getLocWithOffset ce.locStart (("QString".length : Int) - 2)).isValid = true →
       Qt4_QStringFromArray.fixitReplaceWithFromLatin1 o ce =
         ⟨[FixItHint.replacement
             ⟨ce.locStart, o.getLocWithOffset ce.locStart (("QString".length : Int) - 2)⟩
             "QString::fromLatin1"], [], none⟩) ∧
    (∀ (o : SourceOracle) (ce : Qt4_QStringFromArray.CXXConstructExpr),
       (o.getLocForEndOfToken ce.locStart (-1)).isValid = false →
       (o.getLocWithOffset ce.locStart (("QString".length : Int) - 2)).isValid = false →
       Qt4_QStringFromArray.fixitReplaceWithFromLatin1 o ce =
         ⟨[], [], some ce.locStart⟩) ∧
    ("QString".length : Int) - 2 = 5 := by
  refine ⟨?_, ?_, ?_, by decide⟩
  · intro o ce hv
    simp [Qt4_QStringFromArray.fixitReplaceWithFromLatin1, SourceLoc.isInvalid, hv]
  · intro o ce hv hv2
    simp [Qt4_QStringFromArray.fixitReplaceWithFromLatin1, SourceLoc.isInvalid, hv, hv2]
  · intro o ce hv hv2
    simp [Qt4_QStringFromArray.fixitReplaceWithFromLatin1, SourceLoc.isInvalid, hv, hv2]

/-- Witness for C4: the three stages observed on concrete oracles - one where the
end-of-token query succeeds, one where only the offset arithmetic succeeds, and one
where both fail (no edit, manual fixit queued). -/
theorem c4_replace_ctor_three_stage_fallback_witness :
    Qt4_QStringFromArray.fixitReplaceWithFromLatin1 okOracle sampleCtorExpr =
      ⟨[FixItHint.replacement ⟨SourceLoc.loc 0, SourceLoc.loc 7⟩ "QString::fromLatin1"],
       [], none⟩ ∧
    Qt4_QStringFromArray.fixitReplaceWithFromLatin1 fallbackOracle sampleCtorExpr =
      ⟨[FixItHint.replacement ⟨SourceLoc.loc 0, SourceLoc.loc 5⟩ "QString::fromLatin1"],
       [], none⟩ ∧
    Qt4_QStringFromArray.fixitReplaceWithFromLatin1 failOracle sampleCtorExpr =
      ⟨[], [], some (SourceLoc.loc 0)⟩ :=
  ⟨c4_replace_ctor_three_stage_fallback.1 okOracle sampleCtorExpr rfl,
   c4_replace_ctor_three_stage_fallback.2.1 fallbackOracle sampleCtorExpr rfl rfl,
   c4_replace_ctor_three_stage_fallback.2.2.1 failOracle sampleCtorExpr rfl rfl⟩

/-- Claim C9: `isInterestingCtorCall` classifies a constructor as interesting exactly
when it is non-null, belongs to class QString, has at least one parameter, and its
first parameter's type prints as `const class QByteArray &` or `const char *`; and the
classification never examines parameters after the first, so it is invariant under
replacing the tail of the parameter list. -/
theorem c9_interesting_ctor_first_param_only :
    (∀ ctor : Option Qt4_QStringFromArray.CXXConstructorDecl,
      ((Qt4_QStringFromArray.isInterestingCtorCall ctor).interesting = true ↔
        ∃ c, ctor = some c ∧ c.className = "QString" ∧
          ∃ p ps, c.params = p :: ps ∧
            (p.typeStr = "const class QByteArray &" ∨ p.typeStr = "const char *"))) ∧
    (∀ (cn : String) (p : Qt4_QStringFromArray.ParmVarDecl)
       (ps ps' : List Qt4_QStringFromArray.ParmVarDecl),
      Qt4_QStringFromArray.isInterestingCtorCall (some ⟨cn, p :: ps⟩) =
        Qt4_QStringFromArray.isInterestingCtorCall (some ⟨cn, p :: ps'⟩)) := by
  constructor
  · intro ctor
    match ctor with
    | none => simp [Qt4_QStringFromArray.isInterestingCtorCall]
    | some ⟨cn, params⟩ =>
      by_cases hcn : cn = "QString"
      · subst hcn
        match params with
        | [] =>
          simp [Qt4_QStringFromArray.isInterestingCtorCall,
                Qt4_QStringFromArray.isOfClass]
        | p :: ps =>
          by_cases h1 : p.typeStr = "const class QByteArray &"
          · simp [Qt4_QStringFromArray.isInterestingCtorCall,
                  Qt4_QStringFromArray.isOfClass,
                  Qt4_QStringFromArray.isInterestingParam, h1]
          · by_cases h2 : p.typeStr = "const char *"
            · simp [Qt4_QStringFromArray.isInterestingCtorCall,
                    Qt4_QStringFromArray.isOfClass,
                    Qt4_QStringFromArray.isInterestingParam, h1, h2]
            · simp [Qt4_QStringFromArray.isInterestingCtorCall,
                    Qt4_QStringFromArray.isOfClass,
                    Qt4_QStringFromArray.isInterestingParam, h1, h2]
      · simp [Qt4_QStringFromArray.isInterestingCtorCall,
              Qt4_QStringFromArray.isOfClass, hcn]
  · intro cn p ps ps'
    rfl

/-- `getLastD` of a call list assembled from a head node and the calls of a receiver
chain is the chain's deepest node, independent of the default. -/
theorem getLastD_chainCalls (c : QDateTimeUtc.CallNode) (recv : QDateTimeUtc.Receiver)
    (d : QDateTimeUtc.CallNode) :
    (c :: QDateTimeUtc.chainCalls recv).getLastD d = QDateTimeUtc.chainLastNode c recv := by
  induction recv generalizing c d with
  | nonCall => rfl
  | call f r ih =>
    simpa [QDateTimeUtc.chainCalls, QDateTimeUtc.chainLastNode] using ih ⟨f⟩ c

/-- Claim C6 counterexample: on the concrete two-call chain
`currentDateTime().toTime_t()` the element at the last index of the returned sequence
is not the outermost call of the chain: it resolves to `QDateTime::currentDateTime`,
the innermost call, while the outermost (matched) call heads the sequence. -/
theorem c6_counterexample :
    2 ≤ (QDateTimeUtc.callListForChain sampleTimeTCall).length ∧
    (QDateTimeUtc.callListForChain sampleTimeTCall).getLastD ⟨none⟩ ≠
      QDateTimeUtc.barNode sampleTimeTCall ∧
    (QDateTimeUtc.callListForChain sampleTimeTCall).getLastD ⟨none⟩ =
      ⟨some ⟨true, "QDateTime::currentDateTime"⟩⟩ ∧
    (QDateTimeUtc.callListForChain sampleTimeTCall).head? =
      some (QDateTimeUtc.barNode sampleTimeTCall) :=
  ⟨by decide, by decide, by decide, by decide⟩

/-- Claim C6 (amended): the call chain returned for a member call is ordered with the
outermost call first; for every chain of length at least two, the element at the last
index is the innermost (first-executed) call of the chain. -/
theorem c6_chain_outermost_first (bar : QDateTimeUtc.CXXMemberCallExpr)
    (_h : 2 ≤ (QDateTimeUtc.callListForChain bar).length) :
    (QDateTimeUtc.callListForChain bar).head? = some (QDateTimeUtc.barNode bar) ∧
    (QDateTimeUtc.callListForChain bar).getLastD ⟨none⟩ =
      QDateTimeUtc.innermostNode bar :=
  ⟨rfl, getLastD_chainCalls _ _ _⟩

/-- Witness for the amended C6: the chain of `currentDateTime().toUTC()` has the
matched call first and the `currentDateTime` call at the last index. -/
theorem c6_chain_outermost_first_witness :
    (QDateTimeUtc.callListForChain sampleToUTCCall).head? =
      some (QDateTimeUtc.barNode sampleToUTCCall) ∧
    (QDateTimeUtc.callListForChain sampleToUTCCall).getLastD ⟨none⟩ =
      QDateTimeUtc.innermostNode sampleToUTCCall :=
  c6_chain_outermost_first sampleToUTCCall (by decide)

/-- Claim C2 counterexample: on the concrete chain `currentDateTime().toTime_t()` with
the fixit enabled, the check invokes collapse-chain variant 2
(`transformTwoCallsIntoOneV2`), not variant 1, and the single replacement edit carries
the text `::currentDateTimeUtc().toTime_t()` - with a leading `::` - not
`currentDateTimeUtc().toTime_t()` as the claim states. -/
theorem c2_counterexample :
    (QDateTimeUtc.VisitStmt true (QDateTimeUtc.Stmt.memberCall sampleTimeTCall)).synthCall =
      some (QDateTimeUtc.TransformVariant.v2, "::currentDateTimeUtc().toTime_t()") ∧
    (QDateTimeUtc.VisitStmt true (QDateTimeUtc.Stmt.memberCall sampleTimeTCall)).diags =
      [⟨SourceLoc.loc 0, "Use QDateTime::currentDateTimeUtc().toTime_t() instead",
        [FixItHint.replacement ⟨SourceLoc.loc 0, SourceLoc.loc 36⟩
          "::currentDateTimeUtc().toTime_t()"]⟩] ∧
    QDateTimeUtc.TransformVariant.v2 ≠ QDateTimeUtc.TransformVariant.v1 ∧
    "::currentDateTimeUtc().toTime_t()" ≠ "currentDateTimeUtc().toTime_t()" :=
  ⟨by decide, by decide, by decide, by decide⟩

/-- Claim C2 (amended): on an input matching `currentDateTime().toTime_t()` with valid
source locations and the fixit enabled, the check produces - via collapse-chain
variant 2 - a single replacement edit spanning the whole chain with text
`::currentDateTimeUtc().toTime_t()`; on an input matching `currentDateTime().toUTC()`
the replacement text is `::currentDateTimeUtc()` with no trailing call appended. -/
theorem c2_amended_collapse_chain_v2 :
    (∀ mc : QDateTimeUtc.CXXMemberCallExpr,
       mc.methodDecl = some ⟨"QDateTime::toTime_t"⟩ →
       2 ≤ (QDateTimeUtc.callListForChain mc).length →
       ((QDateTimeUtc.callListForChain mc).getLastD ⟨none⟩).directCallee =
         some ⟨true, "QDateTime::currentDateTime"⟩ →
       mc.locStart.isValid = true → mc.locEnd.isValid = true →
       QDateTimeUtc.VisitStmt true (QDateTimeUtc.Stmt.memberCall mc) =
         ⟨[⟨mc.locStart, "Use QDateTime::currentDateTimeUtc().toTime_t() instead",
            [FixItHint.replacement ⟨mc.locStart, mc.locEnd⟩
              "::currentDateTimeUtc().toTime_t()"]⟩],
          none,
          some (QDateTimeUtc.TransformVariant.v2, "::currentDateTimeUtc().toTime_t()")⟩) ∧
    (∀ mc : QDateTimeUtc.CXXMemberCallExpr,
       mc.methodDecl = some ⟨"QDateTime::toUTC"⟩ →
       2 ≤ (QDateTimeUtc.callListForChain mc).length →
       ((QDateTimeUtc.callListForChain mc).getLastD ⟨none⟩).directCallee =
         some ⟨true, "QDateTime::currentDateTime"⟩ →
       mc.locStart.isValid = true → mc.locEnd.isValid = true →
       QDateTimeUtc.VisitStmt true (QDateTimeUtc.Stmt.memberCall mc) =
         ⟨[⟨mc.locStart, "Use QDateTime::currentDateTimeUtc() instead",
            [FixItHint.replacement ⟨mc.locStart, mc.locEnd⟩ "::currentDateTimeUtc()"]⟩],
          none,
          some (QDateTimeUtc.TransformVariant.v2, "::currentDateTimeUtc()")⟩) := by
  constructor
  · intro mc hm hlen hlast hs he
    have hlen' : ¬ (QDateTimeUtc.callListForChain mc).length < 2 := Nat.not_lt.mpr hlen
    simp only [List.getLastD_eq_getLast?] at hlast
    simp [QDateTimeUtc.VisitStmt, hm, hlen', hlast,
          QDateTimeUtc.transformTwoCallsIntoOneV2, hs, he]
  · intro mc hm hlen hlast hs he
    have hlen' : ¬ (QDateTimeUtc.callListForChain mc).length < 2 := Nat.not_lt.mpr hlen
    simp only [List.getLastD_eq_getLast?] at hlast
    simp [QDateTimeUtc.VisitStmt, hm, hlen', hlast,
          QDateTimeUtc.transformTwoCallsIntoOneV2, hs, he]

/-- Witness for the amended C2: both concrete chains, with valid locations and the
fixit enabled, produce exactly the stated single replacement edit. -/
theorem c2_amended_collapse_chain_v2_witness :
    QDateTimeUtc.VisitStmt true (QDateTimeUtc.Stmt.memberCall sampleTimeTCall) =
      ⟨[⟨SourceLoc.loc 0, "Use QDateTime::currentDateTimeUtc().toTime_t() instead",
         [FixItHint.replacement ⟨SourceLoc.loc 0, SourceLoc.loc 36⟩
           "::currentDateTimeUtc().toTime_t()"]⟩],
       none,
       some (QDateTimeUtc.TransformVariant.v2, "::currentDateTimeUtc().toTime_t()")⟩ ∧
    QDateTimeUtc.VisitStmt true (QDateTimeUtc.Stmt.memberCall sampleToUTCCall) =
      ⟨[⟨SourceLoc.loc 0, "Use QDateTime::currentDateTimeUtc() instead",
         [FixItHint.replacement ⟨SourceLoc.loc 0, SourceLoc.loc 33⟩
           "::currentDateTimeUtc()"]⟩],
       none,
       some (QDateTimeUtc.TransformVariant.v2, "::currentDateTimeUtc()")⟩ :=
  ⟨c2_amended_collapse_chain_v2.1 sampleTimeTCall rfl (by decide) (by decide) rfl rfl,
   c2_amended_collapse_chain_v2.2 sampleToUTCCall rfl (by decide) (by decide) rfl rfl⟩

/-- Claim C8: `QDateTimeUtc::VisitStmt` emits a warning exactly when the statement is a
member call resolving to `QDateTime::toTime_t` or `QDateTime::toUTC` whose derived call
chain has at least two elements and whose chain's last element resolves to a method
named `QDateTime::currentDateTime`; on every other statement the visit returns without
emitting anything or queuing any fixit. -/
theorem c8_visit_warns_iff (cfg : Bool) (stmt : QDateTimeUtc.Stmt) :
    ((QDateTimeUtc.VisitStmt cfg stmt).diags ≠ [] ↔
      qdatetimeutcWarnCondition stmt = true) ∧
    (QDateTimeUtc.VisitStmt cfg stmt = QDateTimeUtc.emptyOutcome ↔
      qdatetimeutcWarnCondition stmt = false) := by
  cases stmt with
  | other l =>
    simp [QDateTimeUtc.VisitStmt, qdatetimeutcWarnCondition, QDateTimeUtc.emptyOutcome]
  | memberCall mc =>
    cases hmd : mc.methodDecl with
    | none =>
      simp [QDateTimeUtc.VisitStmt, qdatetimeutcWarnCondition, hmd,
            QDateTimeUtc.emptyOutcome]
    | some m =>
      by_cases hlen : (QDateTimeUtc.callListForChain mc).length < 2
      · have hd : decide (2 ≤ (QDateTimeUtc.callListForChain mc).length) = false :=
          decide_eq_false (Nat.not_le.mpr hlen)
        cases h1 : m.qualifiedName == "QDateTime::toTime_t" <;>
        cases h2 : m.qualifiedName == "QDateTime::toUTC" <;>
          simp [QDateTimeUtc.VisitStmt, qdatetimeutcWarnCondition, hmd, h1, h2, hlen, hd,
                bne, QDateTimeUtc.emptyOutcome]
      · have hd : decide (2 ≤ (QDateTimeUtc.callListForChain mc).length) = true :=
          decide_eq_true (Nat.not_lt.mp hlen)
        cases hlast : ((QDateTimeUtc.callListForChain mc).getLastD ⟨none⟩).directCallee with
        | none =>
          simp only [List.getLastD_eq_getLast?] at hlast
          cases h1 : m.qualifiedName == "QDateTime::toTime_t" <;>
          cases h2 : m.qualifiedName == "QDateTime::toUTC" <;>
            simp [QDateTimeUtc.VisitStmt, qdatetimeutcWarnCondition, hmd, hlast, h1, h2,
                  hlen, hd, bne, QDateTimeUtc.emptyOutcome]
        | some f =>
          simp only [List.getLastD_eq_getLast?] at hlast
          cases h1 : m.qualifiedName == "QDateTime::toTime_t" <;>
          cases h2 : m.qualifiedName == "QDateTime::toUTC" <;>
          cases him : f.isMethod <;>
          cases hqn : f.qualifiedName == "QDateTime::currentDateTime" <;>
          cases cfg <;>
            simp [QDateTimeUtc.VisitStmt, qdatetimeutcWarnCondition, hmd, hlast, h1, h2,
                  him, hqn, hlen, hd, bne, QDateTimeUtc.emptyOutcome,
                  QDateTimeUtc.Outcome.mk.injEq]

/-- Claim C5: when the fixit is enabled and the fix-it synthesizer fails for a matched
anti-pattern, the check still emits its diagnostic as a text-only warning (one
diagnostic, with an empty fixit list) and records a manual-fixit notice at the matched
location (the start location of the matched call); the failure never suppresses the
warning.  Shown for the qdatetime-utc check (collapse-chain failure on an invalid
location) and for the qt4-qstring-from-array check (both locations of the
replace-constructor-name synthesis invalid). -/
theorem c5_synth_failure_never_suppresses_warning :
    (∀ (mc : QDateTimeUtc.CXXMemberCallExpr) (m : QDateTimeUtc.CXXMethodDecl),
       mc.methodDecl = some m →
       (m.qualifiedName = "QDateTime::toTime_t" ∨ m.qualifiedName = "QDateTime::toUTC") →
       2 ≤ (QDateTimeUtc.callListForChain mc).length →
       ((QDateTimeUtc.callListForChain mc).getLastD ⟨none⟩).directCallee =
         some ⟨true, "QDateTime::currentDateTime"⟩ →
       (mc.locStart.isValid && mc.locEnd.isValid) = false →
       (QDateTimeUtc.VisitStmt true (QDateTimeUtc.Stmt.memberCall mc)).manualFixitQueued
           = some mc.locStart ∧
       (QDateTimeUtc.VisitStmt true (QDateTimeUtc.Stmt.memberCall mc)).diags.length = 1 ∧
       ∀ d ∈ (QDateTimeUtc.VisitStmt true (QDateTimeUtc.Stmt.memberCall mc)).diags,
         d.fixits = []) ∧
    (∀ (o : SourceOracle) (pl : Qt4_QStringFromArray.ParentLookups)
       (ce : Qt4_QStringFromArray.CXXConstructExpr),
       (Qt4_QStringFromArray.isInterestingCtorCall ce.constructor).interesting = true →
       pl.parent = some Qt4_QStringFromArray.StmtKind.cxxBindTemporaryExpr →
       pl.grandParent = some Qt4_QStringFromArray.StmtKind.cxxFunctionalCastExpr →
       (o.getLocForEndOfToken ce.locStart (-1)).isValid = false →
       (o.getLocWithOffset ce.locStart (("QString".length : Int) - 2)).isValid = false →
       (Qt4_QStringFromArray.VisitStmt o pl
           (Qt4_QStringFromArray.Stmt.ctorStmt ce)).manualFixitQueued = some ce.locStart ∧
       (Qt4_QStringFromArray.VisitStmt o pl
           (Qt4_QStringFromArray.Stmt.ctorStmt ce)).diags.length = 1 ∧
       ∀ d ∈ (Qt4_QStringFromArray.VisitStmt o pl
           (Qt4_QStringFromArray.Stmt.ctorStmt ce)).diags, d.fixits = []) := by
  constructor
  · intro mc m hm hname hlen hlast hinv
    have hlen' : ¬ (QDateTimeUtc.callListForChain mc).length < 2 := Nat.not_lt.mpr hlen
    simp only [List.getLastD_eq_getLast?] at hlast
    rcases hname with hn | hn <;>
      simp [QDateTimeUtc.VisitStmt, hm, hn, hlen', hlast,
            QDateTimeUtc.transformTwoCallsIntoOneV2, hinv]
  · intro o pl ce hi hp hgp hv1 hv2
    simp [Qt4_QStringFromArray.VisitStmt, hi, Qt4_QStringFromArray.fixCtorCall, hp, hgp,
          Qt4_QStringFromArray.fixitReplaceWithFromLatin1, SourceLoc.isInvalid, hv1, hv2]

/-- Witness for C5: the qdatetime-utc check on the `toTime_t` chain with invalid
location, and the qt4-qstring-from-array check on a matched constructor with both
replace-synthesis locations invalid, each keep their single text-only warning and queue
the manual fixit at the matched call's start location. -/
theorem c5_synth_failure_never_suppresses_warning_witness :
    ((QDateTimeUtc.VisitStmt true
        (QDateTimeUtc.Stmt.memberCall sampleBadLocCall)).manualFixitQueued =
          some (SourceLoc.loc 0) ∧
     (QDateTimeUtc.VisitStmt true
        (QDateTimeUtc.Stmt.memberCall sampleBadLocCall)).diags.length = 1 ∧
     ∀ d ∈ (QDateTimeUtc.VisitStmt true
        (QDateTimeUtc.Stmt.memberCall sampleBadLocCall)).diags, d.fixits = []) ∧
    ((Qt4_QStringFromArray.VisitStmt failOracle
        ⟨some Qt4_QStringFromArray.StmtKind.cxxBindTemporaryExpr,
         some Qt4_QStringFromArray.StmtKind.cxxFunctionalCastExpr⟩
        (Qt4_QStringFromArray.Stmt.ctorStmt sampleCtorExpr)).manualFixitQueued =
          some (SourceLoc.loc 0) ∧
     (Qt4_QStringFromArray.VisitStmt failOracle
        ⟨some Qt4_QStringFromArray.StmtKind.cxxBindTemporaryExpr,
         some Qt4_QStringFromArray.StmtKind.cxxFunctionalCastExpr⟩
        (Qt4_QStringFromArray.Stmt.ctorStmt sampleCtorExpr)).diags.length = 1 ∧
     ∀ d ∈ (Qt4_QStringFromArray.VisitStmt failOracle
        ⟨some Qt4_QStringFromArray.StmtKind.cxxBindTemporaryExpr,
         some Qt4_QStringFromArray.StmtKind.cxxFunctionalCastExpr⟩
        (Qt4_QStringFromArray.Stmt.ctorStmt sampleCtorExpr)).diags, d.fixits = []) :=
  ⟨c5_synth_failure_never_suppresses_warning.1 sampleBadLocCall ⟨"QDateTime::toTime_t"⟩
     rfl (Or.inl rfl) (by decide) (by decide) (by decide),
   c5_synth_failure_never_suppresses_warning.2 failOracle
     ⟨some Qt4_QStringFromArray.StmtKind.cxxBindTemporaryExpr,
      some Qt4_QStringFromArray.StmtKind.cxxFunctionalCastExpr⟩
     sampleCtorExpr (by decide) rfl rfl rfl rfl⟩

/-- Claim C7: every invocation logged by the dispatch walk pairs a node with a check
that registered interest in that node kind; in particular, with the statement-only
check `QSetIntersects` and the declaration-only check `CtorMissingParentArgument`
registered, the former is never invoked on a declaration node and the latter never on
a statement node. -/
theorem c7_dispatch_respects_interest :
    (∀ (checks : List CheckDispatch.Check) (tu : CheckDispatch.AstTree)
       (nm : String) (k : CheckDispatch.NodeKind),
       (nm, k) ∈ CheckDispatch.dispatchWalk checks tu →
       ∃ c ∈ checks, c.name = nm ∧ CheckDispatch.interestedIn c k = true) ∧
    (∀ (tu : CheckDispatch.AstTree) (k : CheckDispatch.NodeKind),
       ("qset-intersects", k) ∈ CheckDispatch.dispatchWalk
         [CheckDispatch.qSetIntersects, CheckDispatch.ctorMissingParentArgument] tu →
       k = CheckDispatch.NodeKind.stmt) ∧
    (∀ (tu : CheckDispatch.AstTree) (k : CheckDispatch.NodeKind),
       ("ctor-missing-parent-argument", k) ∈ CheckDispatch.dispatchWalk
         [CheckDispatch.qSetIntersects, CheckDispatch.ctorMissingParentArgument] tu →
       k = CheckDispatch.NodeKind.decl) := by
  have key : ∀ (checks : List CheckDispatch.Check) (tu : CheckDispatch.AstTree)
      (nm : String) (k : CheckDispatch.NodeKind),
      (nm, k) ∈ CheckDispatch.dispatchWalk checks tu →
      ∃ c ∈ checks, c.name = nm ∧ CheckDispatch.interestedIn c k = true := by
    intro checks tu nm k hmem
    rw [CheckDispatch.dispatchWalk, List.mem_flatMap] at hmem
    obtain ⟨kk, hkk, hmem⟩ := hmem
    rw [List.mem_map] at hmem
    obtain ⟨c, hc, heq⟩ := hmem
    rw [List.mem_filter] at hc
    obtain ⟨hcc, hint⟩ := hc
    simp only [Prod.mk.injEq] at heq
    obtain ⟨h1, h2⟩ := heq
    subst h1
    subst h2
    exact ⟨c, hcc, rfl, hint⟩
  refine ⟨key, ?_, ?_⟩
  · intro tu k hmem
    obtain ⟨c, hc, hname, hint⟩ := key _ tu _ k hmem
    simp only [List.mem_cons, List.mem_singleton] at hc
    rcases hc with hc | hc | hc
    · subst hc
      cases k with
      | decl =>
        simp [CheckDispatch.interestedIn, CheckDispatch.qSetIntersects] at hint
      | stmt => rfl
    · subst hc
      simp [CheckDispatch.ctorMissingParentArgument] at hname
    · exact absurd hc (List.not_mem_nil c)
  · intro tu k hmem
    obtain ⟨c, hc, hname, hint⟩ := key _ tu _ k hmem
    simp only [List.mem_cons, List.mem_singleton] at hc
    rcases hc with hc | hc | hc
    · subst hc
      simp [CheckDispatch.qSetIntersects] at hname
    · subst hc
      cases k with
      | decl => rfl
      | stmt =>
        simp [CheckDispatch.interestedIn, CheckDispatch.ctorMissingParentArgument] at hint
    · exact absurd hc (List.not_mem_nil c)

/-- Witness for C7: on a one-node statement tree the walk invokes the statement-only
check, and that logged invocation is on a statement node. -/
theorem c7_dispatch_respects_interest_witness :
    (∃ c ∈ [CheckDispatch.qSetIntersects, CheckDispatch.ctorMissingParentArgument],
       c.name = "qset-intersects" ∧
       CheckDispatch.interestedIn c CheckDispatch.NodeKind.stmt = true) ∧
    CheckDispatch.NodeKind.stmt = CheckDispatch.NodeKind.stmt :=
  ⟨c7_dispatch_respects_interest.1
     [CheckDispatch.qSetIntersects, CheckDispatch.ctorMissingParentArgument]
     (CheckDispatch.AstTree.node CheckDispatch.NodeKind.stmt [])
     "qset-intersects" CheckDispatch.NodeKind.stmt (by decide),
   c7_dispatch_respects_interest.2.1
     (CheckDispatch.AstTree.node CheckDispatch.NodeKind.stmt [])
     CheckDispatch.NodeKind.stmt (by decide)⟩

end Clazy
